import Mathlib

/-!
Verification of the randomized-generator batching / distribution pipeline of
the `x_xy` library, shallowly embedded in Lean 4.

The embedding follows the Python source:
* `x_xy/utils/batchsize.py` — `distribute_batchsize`, `merge_batchsize`
* `x_xy/algorithms/generator/batch.py` — `_build_batch_matrix`,
  `batch_generators_lazy`, `batched_generator_from_list`
* `x_xy/algorithms/rcmg/__init__.py` — `build_generator`, `batch_generator`,
  `offline_generator`
* `x_xy/subpkgs/pipeline/generator.py` — `make_generator`

External JAX primitives (`jax.random.split`, `jax.random.choice`, array
`reshape`) are modelled as concrete deterministic functions over `Nat` keys
and lists, matching their documented semantics (counter-based splittable
PRNG keys, row-major reshape).
-/

namespace XXY

/-- PRNG keys are modelled as naturals (an opaque splittable key type). -/
abbrev Key := Nat

/-- Model of `jax.random.PRNGKey`: builds a key from a seed. -/
def PRNGKey (seed : Nat) : Key := seed

/-- Model of `jax.random.split key n`: a pure, deterministic,
counter-based derivation of `n` pairwise-distinct sub-keys from `key`. -/
def keySplit (key : Key) (n : Nat) : List Key :=
  (List.range n).map (fun i => Nat.pair key i)

/-- Model of a single cell of `jax.random.choice consume (arange n)`:
a deterministic function of the consumed key and the cell position,
producing an index `< n` (for `n > 0`). -/
def randChoice (consume : Key) (n : Nat) (cell : Nat) : Nat :=
  Nat.pair consume cell % n

/-- Row-major reshape of a flat list to a `P × V` grid, as performed by
`arr.reshape((pmap, vmap))` in `batch_generators_lazy`:
grid cell `(p, v)` holds flat element `p * V + v`. -/
def reshape2 (l : List α) (P V : Nat) (d : α) : List (List α) :=
  (List.range P).map (fun p => (List.range V).map (fun v => l.getD (p * V + v) d))

/-- Embeds `x_xy.utils.batchsize.distribute_batchsize`, with the number of available
devices `D` (`jax.local_device_count()`) as an explicit parameter.  The
Python `assert` failure is modelled as `Except.error`. -/
def distribute_batchsize (D : Nat) (batchsize : Nat) : Except String (Nat × Nat) :=
  if batchsize ≤ 8 then
    Except.ok (1, batchsize)
  else
    if batchsize % D = 0 then
      let vmap_size := batchsize / D
      Except.ok (batchsize / vmap_size, vmap_size)
    else
      Except.error ("Your GPU count of " ++ toString D ++
        " does not split batchsize " ++ toString batchsize)

/-- Embeds `x_xy.utils.batchsize.merge_batchsize` on one leaf: the `(P, V, ...)`
grid is flattened row-major into one leading axis of size `P * V`. -/
def merge_batchsize (grid : List (List α)) : List α :=
  grid.flatten

/-- Embeds `_build_batch_matrix` from `batch.py` / `rcmg/__init__.py`:
run-length expansion of the per-generator counts
(`arr += [i] * l` for `i, l in enumerate(batchsizes)`), written with an
explicit running index. -/
def buildBatchMatrixFrom (i : Nat) : List Nat → List Nat
  | [] => []
  | c :: cs => List.replicate c i ++ buildBatchMatrixFrom (i + 1) cs

/-- Value of `_build_batch_matrix batchsizes`: generator `0` fills the first
`batchsizes[0]` slots, generator `1` the next `batchsizes[1]`, and so on. -/
def build_batch_matrix (batchsizes : List Nat) : List Nat :=
  buildBatchMatrixFrom 0 batchsizes

/-- The sub-key list derived by the body of `batch_generators_lazy.generator`
for a call with master key `key` and total batch size `B`.  In the
stochastic branch the code first executes `key, consume = jax.random.split(key)`
and only then splits the rebound `key` into `B` sub-keys
(`pmap_vmap_keys = jax.random.split(key, bs_total)`); in the static branch
the master key itself is split.  Either way the result is a pure function
of `(key, B)`. -/
def callSubKeys (stochastic : Bool) (key : Key) (B : Nat) : List Key :=
  keySplit (if stochastic then (keySplit key 2).getD 0 0 else key) B

/-- The stochastic per-call slot assignment of `batch_generators_lazy.generator`:
`batch_arr = jax.random.choice(consume, jnp.arange(len(generators)),
shape=(pmap, vmap))`, where `consume` is the second key of
`jax.random.split(key)`. -/
def stochasticBatchArr (key : Key) (nGens P V : Nat) : List (List Nat) :=
  (List.range P).map (fun p => (List.range V).map (fun v =>
    randChoice ((keySplit key 2).getD 1 0) nGens (p * V + v)))

/-- Body of the closure `generator` returned by `batch_generators_lazy`
(`batch.py`, also `batch_generator` in `rcmg/__init__.py`).  Parameters that
are fixed at construction time — the generator list, the pre-reshaped static
assignment grid `batchArrNonstoch`, `bs_total`, and the `(P, V)` sizes chosen
by `distribute_batchsize` — are explicit arguments.  Each grid cell `(p, v)`
applies its assigned generator (`jax.lax.switch`) to its sub-key, and the
`(P, V)` grid of results is merged row-major (`utils.merge_batchsize`). -/
def lazyGeneratorCall (gens : List (Key → α)) (d : α) (stochastic : Bool)
    (batchArrNonstoch : List (List Nat)) (bs_total P V : Nat) (key : Key) :
    List α :=
  let batch_arr :=
    if stochastic then stochasticBatchArr key gens.length P V
    else batchArrNonstoch
  let pmap_vmap_keys := reshape2 (callSubKeys stochastic key bs_total) P V 0
  let data := (List.range P).map (fun p => (List.range V).map (fun v =>
    (gens.getD ((batch_arr.getD p []).getD v 0) (fun _ => d))
      ((pmap_vmap_keys.getD p []).getD v 0)))
  merge_batchsize data

/-- Construction phase of `batch_generators_lazy` for an explicit list of
generators (the `isinstance(generators, list)` path, so the single-generator
probe is skipped).  `D` is the device count consumed by
`distribute_batchsize`; failed Python `assert`s become `Except.error`.
Returns the batched generator closure. -/
def batch_generators_lazy_list (D : Nat) (gens : List (Key → α)) (d : α)
    (stochastic : Bool) (batchsizes : List Nat) (bsInt : Nat) :
    Except String (Key → List α) :=
  if stochastic then
    match distribute_batchsize D bsInt with
    | Except.error e => Except.error e
    | Except.ok (P, V) =>
        Except.ok (lazyGeneratorCall gens d true [] bsInt P V)
  else
    if gens.length = batchsizes.length then
      let flat := build_batch_matrix batchsizes
      let bs_total := flat.length
      match distribute_batchsize D bs_total with
      | Except.error e => Except.error e
      | Except.ok (P, V) =>
          Except.ok (lazyGeneratorCall gens d false (reshape2 flat P V 0)
            bs_total P V)
    else
      Except.error ("assert len(generators) == len(batchsizes)")

/-- Model of `tree_utils.tree_ndim` for a probed output whose `X` component
is a single array: the number of axes of its shape.  An array is modelled by
its shape only, which is all the no-op guard of `batch_generators_lazy`
inspects. -/
structure TArr where
  shape : List Nat
deriving DecidableEq

/-- Model of `tree_utils.tree_ndim` on a one-leaf tree. -/
def tree_ndim (X : TArr) : Nat := X.shape.length

/-- Result of `batch_generators_lazy` on a single (non-list) generator:
either the original generator object, returned unchanged, or the freshly
built batched generator. -/
inductive LazySingleResult (α : Type) where
  | unchanged (g : Key → TArr × α)
  | batched (g : Except String (Key → List (TArr × α)))
deriving Inhabited

/-- The single-generator entry path of `batch_generators_lazy` (`batch.py`
lines 32–41): probe the generator once with `jax.random.PRNGKey(0)`, take
the `X` component (`X, *_ = generators(key)`), and if `tree_ndim(X) > 2`
emit a `warnings.warn` diagnostic and return the generator unchanged;
otherwise wrap it in a singleton list and batch it normally.  The first
component of the result is the emitted warning, if any. -/
def batch_generators_lazy_single (D : Nat) (gen : Key → TArr × α)
    (d : TArr × α) (bs : Nat) :
    Option String × LazySingleResult α :=
  let X := (gen (PRNGKey 0)).1
  let ndim := tree_ndim X
  if ndim > 2 then
    (some ("generators seem already batched. ndim=" ++ toString ndim),
     LazySingleResult.unchanged gen)
  else
    (none,
     LazySingleResult.batched (batch_generators_lazy_list D [gen] d false [bs] 0))

/-! ### The single-trajectory generator (`build_generator`) -/

/-- A system, for the purposes of the trajectory generator: the ordered list
of per-link joint-type tags (`sys.link_types`), plus whatever else the
setup / forward-kinematics / finalize functions consume, kept abstract in
`rest`. -/
structure SysM (γ : Type) where
  link_types : List String
  rest : γ

/-- Modelled from the spec (§4.2, §4.3(b)): the per-link random-draw scan of
`build_generator.draw_q` run by the Tree Scan Engine (`x_xy.scan.tree`,
whose source is not in `src/`).  Per the spec this is a *sequential* left
fold over the links in index order carrying a running key: for each link the
carried key is split into `(key, key_t, key_value)`
(`jax.random.split(key, 3)`), the joint type's registered `rcmg_draw_fn` is
applied to `(config, key_t, key_value)`, and a joint type with no draw
function aborts with
`Exception(f"The joint type {link_type} has no draw fn specified.")`.
Returns the per-link coordinate blocks in link order together with the
leftover carried key (`keys[-1]`). -/
def draw_scan {Cfg Q : Type} (registry : String → Option (Cfg → Key → Key → Q)) (config : Cfg) :
    Key → List String → Except String (List Q × Key)
  | key, [] => Except.ok ([], key)
  | key, t :: ts =>
    let ks := keySplit key 3
    match registry t with
    | none => Except.error ("The joint type " ++ t ++ " has no draw fn specified.")
    | some draw =>
      match draw_scan registry config (ks.getD 0 0) ts with
      | Except.error e => Except.error e
      | Except.ok (qs, kfin) =>
          Except.ok (draw config (ks.getD 1 0) (ks.getD 2 0) :: qs, kfin)

/-- The closure `generator` returned by `build_generator`
(`rcmg/__init__.py` lines 35–66): split the input key into
`(key_start, consume)`, apply `setup_fn` to `(consume, sys)`, run the
per-link draw scan over the *original* system's `link_types` (the code
passes `sys.link_types`, not `sys_mod.link_types`) threading `key_start`,
concatenate the drawn blocks into `q` (kept as the ordered block list),
run forward kinematics `fk` on `(sys_mod, q)`, and hand
`(leftover key, q, x, sys_mod)` to `finalize_fn`.  `registry` models the
process-wide `_joint_types` table (its source, `jcalc.py`, is not in
`src/`); `fk` models `jax.vmap(forward_kinematics_transforms)`, a pure
function per spec §4.4. -/
def build_generator {Cfg Q X Out γ : Type}
    (registry : String → Option (Cfg → Key → Key → Q))
    (fk : SysM γ → List Q → X) (sys : SysM γ) (config : Cfg)
    (setup_fn : Key → SysM γ → SysM γ)
    (finalize_fn : Key → List Q → X → SysM γ → Out) (key : Key) :
    Except String Out :=
  let ks := keySplit key 2
  let key_start := ks.getD 0 0
  let consume := ks.getD 1 0
  let sys_mod := setup_fn consume sys
  match draw_scan registry config key_start sys.link_types with
  | Except.error e => Except.error e
  | Except.ok (q, kfin) =>
      let x := fk sys_mod q
      Except.ok (finalize_fn kfin q x sys_mod)

/-- The closure returned by `build_generator`, with the closure's captured
environment threaded explicitly as state.  The Python closure declares
`nonlocal sys` but never assigns it, and `q_list` is a fresh local of every
call, so the only cross-call state is the captured `sys` cell, which every
call reads and leaves untouched. -/
def build_generator_call {Cfg Q X Out γ : Type}
    (registry : String → Option (Cfg → Key → Key → Q))
    (fk : SysM γ → List Q → X) (config : Cfg)
    (setup_fn : Key → SysM γ → SysM γ)
    (finalize_fn : Key → List Q → X → SysM γ → Out) (key : Key)
    (sysCell : SysM γ) : Except String Out × SysM γ :=
  (build_generator registry fk sysCell config setup_fn finalize_fn key, sysCell)

/-- The closure returned by `batch_generators_lazy`, with its captured
environment threaded explicitly as state.  All captured variables
(`generators`, `batch_arr_nonstoch`, `bs_total`, `pmap`, `vmap`) are bound
at construction and never reassigned, so the state passes through
unchanged. -/
structure LazyEnv (α : Type) where
  gens : List (Key → α)
  d : α
  stochastic : Bool
  batchArrNonstoch : List (List Nat)
  bs_total : Nat
  P : Nat
  V : Nat

/-- One call of the lazily batched generator, as a state transition on its
captured environment. -/
def lazy_generator_call_st (key : Key) (env : LazyEnv α) :
    List α × LazyEnv α :=
  (lazyGeneratorCall env.gens env.d env.stochastic env.batchArrNonstoch
    env.bs_total env.P env.V key, env)

/-! ### The offline / eager pool generator (`batched_generator_from_list`) -/

/-- The mutable state captured by the closure returned by
`batched_generator_from_list` (`batch.py` lines 108–132, identically
`offline_generator` in `rcmg/__init__.py`): the pool list `data`
(mutated in place by `random.shuffle`) and the cursor `i`
(declared `nonlocal` and reassigned on every call). -/
structure PoolState (α : Type) where
  data : List α
  i : Nat

/-- One call of the closure `generator(key)` returned by
`batched_generator_from_list`: the key is discarded (`del key`); if
shuffling is enabled and the cursor is at `0` the pool is reshuffled
(`random.shuffle(data)`, modelled by the caller-supplied permutation
`shuf` since the Python shuffle draws from the global `random` state);
the batch `data[i*batchsize : (i+1)*batchsize]` is served and the cursor
advances to `(i + 1) % N`, where `N = len(data) // batchsize` is fixed at
construction. -/
def pool_generator_call (batchsize N : Nat) (shuffle : Bool)
    (shuf : List α → List α) (key : Key) (s : PoolState α) :
    List α × PoolState α :=
  let _ := key
  let data := if shuffle ∧ s.i = 0 then shuf s.data else s.data
  let batch := (data.drop (s.i * batchsize)).take batchsize
  (batch, ⟨data, (s.i + 1) % N⟩)

/-- Construction phase of `batched_generator_from_list`: asserts
`drop_last` and `len(data) >= batchsize`, fixes `N = len(data) // batchsize`
and the initial cursor `i = 0`. -/
def batched_generator_from_list (data : List α) (batchsize : Nat)
    (drop_last : Bool) : Except String (Nat × PoolState α) :=
  if drop_last then
    if batchsize ≤ data.length then
      Except.ok (data.length / batchsize, ⟨data, 0⟩)
    else
      Except.error ("assert len(data) >= batchsize")
  else
    Except.error ("Not drop_last is currently not implemented.")

/-- Runs `n` consecutive calls of the pool generator, collecting the served
batches.  `shufs j` is the permutation the global `random` state would
produce at the `j`-th of these calls. -/
def pool_generator_run (batchsize N : Nat) (shuffle : Bool)
    (shufs : Nat → List α → List α) :
    Nat → PoolState α → List (List α) × PoolState α
  | 0, s => ([], s)
  | n + 1, s =>
    let c := pool_generator_call batchsize N shuffle (shufs 0) 0 s
    let r := pool_generator_run batchsize N shuffle (fun j => shufs (j + 1)) n c.2
    (c.1 :: r.1, r.2)

/-! ### `make_generator` (`subpkgs/pipeline/generator.py`) -/

/-- The nested loop of `make_generator` building one component generator per
`(system, config)` pair (`for sys in sys_data: for config in configs:`). -/
def make_generator_gens (mk : S → C → G) (sys_data : List S)
    (configs : List C) : List G :=
  (sys_data.map (fun s => configs.map (fun c => mk s c))).flatten

/-- The static counts chosen by `make_generator`:
`batchsizes = len(gens) * [bs // len(gens)]`. -/
def make_generator_batchsizes (nGens bs : Nat) : List Nat :=
  List.replicate nGens (bs / nGens)

/-! ### Helper lemmas -/

theorem getD_map_range (f : Nat → α) {n i : Nat} (d : α) (h : i < n) :
    ((List.range n).map f).getD i d = f i := by
  simp [List.getD_eq_getElem?_getD, List.getElem?_range h]

theorem keySplit_length (k : Key) (n : Nat) : (keySplit k n).length = n := by
  simp [keySplit]

theorem reshape2_cell {l : List α} {P V p v : Nat} (d : α) (hp : p < P)
    (hv : v < V) :
    ((reshape2 l P V d).getD p []).getD v d = l.getD (p * V + v) d := by
  unfold reshape2
  rw [getD_map_range _ _ hp, getD_map_range _ _ hv]

theorem grid_congr {f g : Nat → Nat → α} (P V : Nat)
    (h : ∀ p v, p < P → v < V → f p v = g p v) :
    (List.range P).map (fun p => (List.range V).map (fun v => f p v))
      = (List.range P).map (fun p => (List.range V).map (fun v => g p v)) := by
  refine List.map_congr_left (fun p hp => ?_)
  refine List.map_congr_left (fun v hv => ?_)
  exact h p v (List.mem_range.mp hp) (List.mem_range.mp hv)

theorem flatten_grid (g : Nat → α) : ∀ (P V : Nat),
    ((List.range P).map (fun p => (List.range V).map (fun v =>
      g (p * V + v)))).flatten = (List.range (P * V)).map g := by
  intro P
  induction P with
  | zero => simp
  | succ P ih =>
    intro V
    rw [List.range_succ, List.map_append, List.flatten_append, ih]
    simp only [List.map_cons, List.map_nil, List.flatten_cons, List.flatten_nil,
      List.append_nil]
    rw [Nat.succ_mul, List.range_add, List.map_append, List.map_map]
    rfl

/-- Characterization of a static (non-stochastic) call of the lazily batched
generator: flat slot `f` applies the generator assigned by the flat batch
matrix at index `f` to sub-key `f` of the master key's split, for *any*
row-major grid factorization `P * V` of the total batch size. -/
theorem lazyGeneratorCall_static (gens : List (Key → α)) (d : α)
    (flat : List Nat) (bs_total P V : Nat) (key : Key)
    (hPV : P * V = bs_total) :
    lazyGeneratorCall gens d false (reshape2 flat P V 0) bs_total P V key
      = (List.range bs_total).map (fun f =>
          gens.getD (flat.getD f 0) (fun _ => d)
            ((keySplit key bs_total).getD f 0)) := by
  unfold lazyGeneratorCall merge_batchsize
  simp only [Bool.false_eq_true, if_false]
  rw [grid_congr (g := fun p v =>
      gens.getD (flat.getD (p * V + v) 0) (fun _ => d)
        ((keySplit key bs_total).getD (p * V + v) 0)) P V ?_]
  · rw [flatten_grid (fun f => gens.getD (flat.getD f 0) (fun _ => d)
        ((keySplit key bs_total).getD f 0)) P V, hPV]
  · intro p v hp hv
    rw [reshape2_cell 0 hp hv, reshape2_cell 0 hp hv]
    rfl

/-- C2: for a fixed master key and flat batch matrix, the flattened output of
the lazily batched generator is the same for every grid factorization
`P₁ * V₁ = P₂ * V₂ = B` the sizing policy may choose, and in each case flat
slot `f` receives sub-key `f` of the split of the master key and the
generator assigned by the flat batch matrix at index `f`: keys are split
flat, reshaped to `(P, V)` row-major and merged back row-major. -/
theorem claim_C2_factorization_irrelevant {α : Type} (gens : List (Key → α))
    (d : α) (bss : List Nat) (P₁ V₁ P₂ V₂ : Nat) (key : Key)
    (h₁ : P₁ * V₁ = (build_batch_matrix bss).length)
    (h₂ : P₂ * V₂ = (build_batch_matrix bss).length) :
    lazyGeneratorCall gens d false
        (reshape2 (build_batch_matrix bss) P₁ V₁ 0)
        (build_batch_matrix bss).length P₁ V₁ key
      = lazyGeneratorCall gens d false
          (reshape2 (build_batch_matrix bss) P₂ V₂ 0)
          (build_batch_matrix bss).length P₂ V₂ key
    ∧ lazyGeneratorCall gens d false
        (reshape2 (build_batch_matrix bss) P₁ V₁ 0)
        (build_batch_matrix bss).length P₁ V₁ key
      = (List.range (build_batch_matrix bss).length).map (fun f =>
          gens.getD ((build_batch_matrix bss).getD f 0) (fun _ => d)
            ((keySplit key (build_batch_matrix bss).length).getD f 0)) := by
  constructor
  · rw [lazyGeneratorCall_static gens d _ _ _ _ key h₁,
      lazyGeneratorCall_static gens d _ _ _ _ key h₂]
  · exact lazyGeneratorCall_static gens d _ _ _ _ key h₁

/-- C2 witness: a single generator with total batch size `B = 16`, compared
under the factorizations `(P, V) = (1, 16)` and `(P, V) = (2, 8)`. -/
theorem claim_C2_witness :
    lazyGeneratorCall [fun k => k] 0 false
        (reshape2 (build_batch_matrix [16]) 1 16 0)
        (build_batch_matrix [16]).length 1 16 5
      = lazyGeneratorCall [fun k => k] 0 false
          (reshape2 (build_batch_matrix [16]) 2 8 0)
          (build_batch_matrix [16]).length 2 8 5 :=
  (claim_C2_factorization_irrelevant [fun k => k] 0 [16] 1 16 2 8 5
    (by decide) (by decide)).1

/-- C3: on every call with master key `key` and total batch size `B`, in both
the static and the stochastic slot-assignment mode, the call derives exactly
`B` sub-keys — `callSubKeys` is a pure function applied to `(key, B)` — and
the sub-key grid cell `(p, v)` used by the batched call holds the sub-key at
flat index `f = p * V + v`. -/
theorem claim_C3_key_distribution (key : Key) (B P V : Nat) :
    ∀ stochastic : Bool,
      (callSubKeys stochastic key B).length = B
      ∧ ∀ p v, p < P → v < V →
          ((reshape2 (callSubKeys stochastic key B) P V 0).getD p []).getD v 0
            = (callSubKeys stochastic key B).getD (p * V + v) 0 := by
  intro stochastic
  refine ⟨keySplit_length _ _, fun p v hp hv => reshape2_cell 0 hp hv⟩

/-- C3 witness: `B = 6` sub-keys on a `2 × 3` grid, checked at cell
`(1, 2)`, flat index `5`, in both modes. -/
theorem claim_C3_witness :
    ((callSubKeys false 9 6).length = 6
      ∧ ((reshape2 (callSubKeys false 9 6) 2 3 0).getD 1 []).getD 2 0
          = (callSubKeys false 9 6).getD 5 0)
    ∧ ((callSubKeys true 9 6).length = 6
      ∧ ((reshape2 (callSubKeys true 9 6) 2 3 0).getD 1 []).getD 2 0
          = (callSubKeys true 9 6).getD 5 0) :=
  ⟨⟨(claim_C3_key_distribution 9 6 2 3 false).1,
    (claim_C3_key_distribution 9 6 2 3 false).2 1 2 (by decide) (by decide)⟩,
   ⟨(claim_C3_key_distribution 9 6 2 3 true).1,
    (claim_C3_key_distribution 9 6 2 3 true).2 1 2 (by decide) (by decide)⟩⟩

/-- C4: for every batch size `b ≥ 1` and device count `D ≥ 1`:
if `b ≤ 8` then `distribute_batchsize` returns `(1, b)`; otherwise it fails
with an arithmetic error exactly when `D` does not divide `b`, and returns
`(D, b / D)` when it does; every successful result satisfies `P * V = b`. -/
theorem claim_C4_distribute_batchsize (D b : Nat) (hD : 1 ≤ D) (hb : 1 ≤ b) :
    (b ≤ 8 → distribute_batchsize D b = Except.ok (1, b))
    ∧ (8 < b → ((∃ e, distribute_batchsize D b = Except.error e) ↔ ¬ D ∣ b))
    ∧ (8 < b → D ∣ b → distribute_batchsize D b = Except.ok (D, b / D))
    ∧ (∀ P V, distribute_batchsize D b = Except.ok (P, V) → P * V = b) := by
  refine ⟨?_, ?_, ?_, ?_⟩
  · intro h8
    simp [distribute_batchsize, h8]
  · intro h8
    rw [Nat.dvd_iff_mod_eq_zero]
    unfold distribute_batchsize
    rw [if_neg (by omega)]
    by_cases hmod : b % D = 0
    · simp [hmod]
    · simp [hmod]
  · intro h8 hdvd
    unfold distribute_batchsize
    rw [if_neg (by omega), if_pos (Nat.mod_eq_zero_of_dvd hdvd)]
    show Except.ok (b / (b / D), b / D) = Except.ok (D, b / D)
    rw [Nat.div_div_self hdvd (by omega)]
  · intro P V hok
    unfold distribute_batchsize at hok
    by_cases h8 : b ≤ 8
    · rw [if_pos h8] at hok
      cases hok
      exact Nat.one_mul b
    · rw [if_neg h8] at hok
      by_cases hmod : b % D = 0
      · rw [if_pos hmod] at hok
        cases hok
        have hdvd : D ∣ b := Nat.dvd_of_mod_eq_zero hmod
        rw [Nat.div_div_self hdvd (by omega)]
        exact Nat.mul_div_cancel' hdvd
      · rw [if_neg hmod] at hok
        cases hok

theorem buildBatchMatrixFrom_length (cs : List Nat) :
    ∀ k, (buildBatchMatrixFrom k cs).length = cs.sum := by
  induction cs with
  | nil => intro k; rfl
  | cons c cs ih =>
    intro k
    simp [buildBatchMatrixFrom, ih]

theorem buildBatchMatrixFrom_slice (cs : List Nat) :
    ∀ k i, i < cs.length →
      ((buildBatchMatrixFrom k cs).drop ((cs.take i).sum)).take (cs.getD i 0)
        = List.replicate (cs.getD i 0) (k + i) := by
  induction cs with
  | nil => intro k i hi; cases hi
  | cons c cs ih =>
    intro k i hi
    cases i with
    | zero =>
      simp only [List.take_zero, List.sum_nil, List.drop_zero, List.getD,
        List.getElem?_cons_zero, Option.getD_some, Nat.add_zero]
      rw [buildBatchMatrixFrom]
      rw [List.take_append_of_le_length (by simp)]
      simp
    | succ i =>
      simp only [List.take_succ_cons, List.sum_cons, List.getD_cons_succ]
      rw [buildBatchMatrixFrom]
      rw [show c + (List.take i cs).sum
            = (List.replicate c k).length + (List.take i cs).sum from by
          rw [List.length_replicate]]
      rw [List.drop_append]
      rw [ih (k + 1) i (by simp only [List.length_cons] at hi; omega)]
      congr 1
      omega

theorem buildBatchMatrixFrom_count_lt (cs : List Nat) :
    ∀ k j, j < k → (buildBatchMatrixFrom k cs).count j = 0 := by
  induction cs with
  | nil => intro k j _; rfl
  | cons c cs ih =>
    intro k j hj
    rw [buildBatchMatrixFrom, List.count_append]
    rw [List.count_replicate, if_neg (by simp only [beq_iff_eq]; omega),
      ih (k + 1) j (by omega)]

theorem buildBatchMatrixFrom_count (cs : List Nat) :
    ∀ k i, i < cs.length →
      (buildBatchMatrixFrom k cs).count (k + i) = cs.getD i 0 := by
  induction cs with
  | nil => intro k i hi; cases hi
  | cons c cs ih =>
    intro k i hi
    cases i with
    | zero =>
      rw [buildBatchMatrixFrom, List.count_append]
      rw [Nat.add_zero, List.count_replicate_self,
        buildBatchMatrixFrom_count_lt cs (k + 1) k (by omega)]
      rfl
    | succ i =>
      rw [buildBatchMatrixFrom, List.count_append]
      rw [List.count_replicate, if_neg (by simp only [beq_iff_eq]; omega),
        List.getD_cons_succ]
      rw [show k + (i + 1) = (k + 1) + i from by omega]
      rw [ih (k + 1) i (by simp only [List.length_cons] at hi; omega)]
      rw [Nat.zero_add]

/-- C5: for counts `[c₀, …, c_{n-1}]`, the static slot-assignment array has
length `c₀ + ⋯ + c_{n-1}` and is their run-length expansion: the `cᵢ` slots
starting at `c₀ + ⋯ + c_{i-1}` all equal `i`, and exactly `cᵢ` of all slots
are assigned to generator `i`. -/
theorem claim_C5_batch_matrix (cs : List Nat) :
    (build_batch_matrix cs).length = cs.sum
    ∧ (∀ i, i < cs.length →
        ((build_batch_matrix cs).drop ((cs.take i).sum)).take (cs.getD i 0)
          = List.replicate (cs.getD i 0) i)
    ∧ (∀ i, i < cs.length →
        (build_batch_matrix cs).count i = cs.getD i 0) := by
  refine ⟨buildBatchMatrixFrom_length cs 0, fun i hi => ?_, fun i hi => ?_⟩
  · have := buildBatchMatrixFrom_slice cs 0 i hi
    rwa [Nat.zero_add] at this
  · have := buildBatchMatrixFrom_count cs 0 i hi
    rwa [Nat.zero_add] at this

/-- C5 witness: counts `[2, 0, 3]` expand to `[0, 0, 2, 2, 2]`; checked at
`i = 2` (slice and count) with total length `5`. -/
theorem claim_C5_witness :
    (build_batch_matrix [2, 0, 3]).length = [2, 0, 3].sum
    ∧ ((build_batch_matrix [2, 0, 3]).drop (([2, 0, 3].take 2).sum)).take
        ([2, 0, 3].getD 2 0) = List.replicate ([2, 0, 3].getD 2 0) 2
    ∧ (build_batch_matrix [2, 0, 3]).count 2 = [2, 0, 3].getD 2 0 :=
  ⟨(claim_C5_batch_matrix [2, 0, 3]).1,
   (claim_C5_batch_matrix [2, 0, 3]).2.1 2 (by decide),
   (claim_C5_batch_matrix [2, 0, 3]).2.2 2 (by decide)⟩

/-- C4 witness: `b = 3` (small), `b = 16` with `D = 2` (even split into
`(2, 8)`), and `b = 9` with `D = 2` (arithmetic error). -/
theorem claim_C4_witness :
    distribute_batchsize 2 3 = Except.ok (1, 3)
    ∧ distribute_batchsize 2 16 = Except.ok (2, 8)
    ∧ (∃ e, distribute_batchsize 2 9 = Except.error e) :=
  ⟨(claim_C4_distribute_batchsize 2 3 (by decide) (by decide)).1 (by decide),
   by
    have h := (claim_C4_distribute_batchsize 2 16 (by decide) (by decide)).2.2.1
      (by decide) (by decide)
    simpa using h,
   ((claim_C4_distribute_batchsize 2 9 (by decide) (by decide)).2.1
      (by decide)).mpr (by decide)⟩

/-- C1: the closure returned by `build_generator` and the closure returned by
`batch_generators_lazy` are pure functions of their input key: with the
captured closure environments threaded explicitly as state, a second call
with the same key returns a bit-identical output, and the state after a call
equals the state before it — no state is retained between calls. -/
theorem claim_C1_generator_purity {Cfg Q X Out γ α : Type}
    (registry : String → Option (Cfg → Key → Key → Q))
    (fk : SysM γ → List Q → X) (config : Cfg)
    (setup_fn : Key → SysM γ → SysM γ)
    (finalize_fn : Key → List Q → X → SysM γ → Out)
    (key : Key) (sysCell : SysM γ) (env : LazyEnv α) :
    ((build_generator_call registry fk config setup_fn finalize_fn key
        ((build_generator_call registry fk config setup_fn finalize_fn key
          sysCell).2)).1
      = (build_generator_call registry fk config setup_fn finalize_fn key
          sysCell).1
     ∧ (build_generator_call registry fk config setup_fn finalize_fn key
          sysCell).2 = sysCell)
    ∧ ((lazy_generator_call_st key ((lazy_generator_call_st key env).2)).1
        = (lazy_generator_call_st key env).1
       ∧ (lazy_generator_call_st key env).2 = env) :=
  ⟨⟨rfl, rfl⟩, ⟨rfl, rfl⟩⟩

theorem draw_scan_error_iff {Cfg Q : Type}
    (registry : String → Option (Cfg → Key → Key → Q)) (config : Cfg) :
    ∀ (key : Key) (ts : List String),
      (∃ e, draw_scan registry config key ts = Except.error e)
        ↔ ∃ t ∈ ts, registry t = none := by
  intro key ts
  induction ts generalizing key with
  | nil => simp [draw_scan]
  | cons t ts ih =>
    simp only [draw_scan]
    cases hreg : registry t with
    | none =>
      constructor
      · intro _
        exact ⟨t, List.mem_cons_self t ts, hreg⟩
      · intro _
        exact ⟨_, rfl⟩
    | some draw =>
      cases hres : draw_scan registry config ((keySplit key 3).getD 0 0) ts with
      | error e =>
        constructor
        · intro _
          obtain ⟨t', ht', hnone⟩ := (ih _).mp ⟨e, hres⟩
          exact ⟨t', List.mem_cons_of_mem t ht', hnone⟩
        · intro _
          exact ⟨e, rfl⟩
      | ok p =>
        obtain ⟨qs, kfin⟩ := p
        constructor
        · rintro ⟨e, he⟩
          cases he
        · rintro ⟨t', ht', hnone⟩
          rcases List.mem_cons.mp ht' with rfl | ht'
          · rw [hreg] at hnone
            cases hnone
          · obtain ⟨e, he⟩ := (ih _).mpr ⟨t', ht', hnone⟩
            rw [hres] at he
            cases he

theorem draw_scan_first_missing {Cfg Q : Type}
    (registry : String → Option (Cfg → Key → Key → Q)) (config : Cfg) :
    ∀ (key : Key) (ts : List String) (t₀ : String),
      ts.find? (fun t => (registry t).isNone) = some t₀ →
      draw_scan registry config key ts
        = Except.error ("The joint type " ++ t₀ ++ " has no draw fn specified.") := by
  intro key ts
  induction ts generalizing key with
  | nil => intro t₀ h; cases h
  | cons t ts ih =>
    intro t₀ hfind
    cases hreg : registry t with
    | none =>
      rw [List.find?_cons_of_pos _ (by simp [hreg])] at hfind
      cases hfind
      simp only [draw_scan, hreg]
    | some draw =>
      rw [List.find?_cons_of_neg _ (by simp [hreg])] at hfind
      simp only [draw_scan, hreg]
      rw [ih _ t₀ hfind]

/-- C6: the generator built by `build_generator` fails exactly when some
link's joint type has no registered draw function; the error message names
the first offending joint type encountered by the per-link draw scan; and in
that case the result is the same for every forward-kinematics and finalize
function — the error arises before either is consulted. -/
theorem claim_C6_missing_draw_fn {Cfg Q X Out γ : Type}
    (registry : String → Option (Cfg → Key → Key → Q))
    (fk : SysM γ → List Q → X) (sys : SysM γ) (config : Cfg)
    (setup_fn : Key → SysM γ → SysM γ)
    (finalize_fn : Key → List Q → X → SysM γ → Out) (key : Key)
    (hlinks : sys.link_types ≠ []) :
    ((∃ e, build_generator registry fk sys config setup_fn finalize_fn key
        = Except.error e)
      ↔ ∃ t ∈ sys.link_types, registry t = none)
    ∧ (∀ t₀, sys.link_types.find? (fun t => (registry t).isNone) = some t₀ →
        build_generator registry fk sys config setup_fn finalize_fn key
          = Except.error ("The joint type " ++ t₀ ++ " has no draw fn specified."))
    ∧ ((∃ t ∈ sys.link_types, registry t = none) →
        ∀ (fk' : SysM γ → List Q → X)
          (finalize_fn' : Key → List Q → X → SysM γ → Out),
          build_generator registry fk sys config setup_fn finalize_fn key
            = build_generator registry fk' sys config setup_fn finalize_fn' key) := by
  refine ⟨?_, ?_, ?_⟩
  · unfold build_generator
    cases hres : draw_scan registry config ((keySplit key 2).getD 0 0)
        sys.link_types with
    | error e =>
      simp only [hres]
      constructor
      · intro _
        exact (draw_scan_error_iff registry config _ _).mp ⟨e, hres⟩
      · intro _
        exact ⟨e, rfl⟩
    | ok p =>
      obtain ⟨qs, kfin⟩ := p
      simp only [hres]
      constructor
      · rintro ⟨e, he⟩
        cases he
      · intro hmem
        obtain ⟨e, he⟩ := (draw_scan_error_iff registry config
          ((keySplit key 2).getD 0 0) sys.link_types).mpr hmem
        rw [hres] at he
        cases he
  · intro t₀ hfind
    have h := draw_scan_first_missing registry config ((keySplit key 2).getD 0 0)
      sys.link_types t₀ hfind
    unfold build_generator
    simp only [h]
  · intro hmem fk' finalize_fn'
    obtain ⟨e, he⟩ := (draw_scan_error_iff registry config
      ((keySplit key 2).getD 0 0) sys.link_types).mpr hmem
    unfold build_generator
    simp only [he]

/-- C6 witness: a registry in which `"rx"` has a draw function and `"free"`
has none; a two-link system `["rx", "free"]` errors with a message naming
`"free"`, and the error exists. -/
theorem claim_C6_witness :
    (∃ e, build_generator
        (fun t => if t = "rx" then some (fun (_ : Unit) (_ : Key) (_ : Key) =>
          (0 : Nat)) else none)
        (fun (_ : SysM Unit) (_ : List Nat) => (0 : Nat))
        ⟨["rx", "free"], ()⟩ () (fun _ s => s) (fun _ _ _ _ => (0 : Nat)) 7
        = Except.error e)
    ∧ build_generator
        (fun t => if t = "rx" then some (fun (_ : Unit) (_ : Key) (_ : Key) =>
          (0 : Nat)) else none)
        (fun (_ : SysM Unit) (_ : List Nat) => (0 : Nat))
        ⟨["rx", "free"], ()⟩ () (fun _ s => s) (fun _ _ _ _ => (0 : Nat)) 7
        = Except.error ("The joint type free has no draw fn specified.") :=
  ⟨(claim_C6_missing_draw_fn _ _ _ _ _ _ 7 (by simp)).1.mpr
      ⟨"free", by simp, by simp⟩,
   (claim_C6_missing_draw_fn _ _ _ _ _ _ 7 (by simp)).2.1 "free" (by rfl)⟩

/-- C7: the single-generator entry path of `batch_generators_lazy` probes
the generator once at `PRNGKey 0`; if the probed `X` output has tree
dimensionality greater than `2` it returns the original generator object
unchanged together with a diagnostic warning, and otherwise it batches the
generator normally with no warning. -/
theorem claim_C7_noop_guard {α : Type} (D : Nat) (gen : Key → TArr × α)
    (d : TArr × α) (bs : Nat) :
    (2 < tree_ndim (gen (PRNGKey 0)).1 →
      batch_generators_lazy_single D gen d bs
        = (some ("generators seem already batched. ndim="
            ++ toString (tree_ndim (gen (PRNGKey 0)).1)),
           LazySingleResult.unchanged gen))
    ∧ (tree_ndim (gen (PRNGKey 0)).1 ≤ 2 →
      batch_generators_lazy_single D gen d bs
        = (none, LazySingleResult.batched
            (batch_generators_lazy_list D [gen] d false [bs] 0))) := by
  constructor
  · intro h
    unfold batch_generators_lazy_single
    rw [if_pos h]
  · intro h
    unfold batch_generators_lazy_single
    rw [if_neg (by omega)]

/-- C7 witness: a probe output of shape `[4, 5, 6]` (ndim `3`) is returned
unchanged with a warning; a probe output of shape `[4, 5]` (ndim `2`) is
batched normally. -/
theorem claim_C7_witness :
    batch_generators_lazy_single 1
        (fun _ => (TArr.mk [4, 5, 6], (0 : Nat))) (TArr.mk [], 0) 3
      = (some ("generators seem already batched. ndim=" ++ toString 3),
         LazySingleResult.unchanged (fun _ => (TArr.mk [4, 5, 6], (0 : Nat))))
    ∧ batch_generators_lazy_single 1
        (fun _ => (TArr.mk [4, 5], (0 : Nat))) (TArr.mk [], 0) 3
      = (none, LazySingleResult.batched (batch_generators_lazy_list 1
          [fun _ => (TArr.mk [4, 5], (0 : Nat))] (TArr.mk [], 0) false [3] 0)) :=
  ⟨(claim_C7_noop_guard 1 (fun _ => (TArr.mk [4, 5, 6], (0 : Nat)))
      (TArr.mk [], 0) 3).1 (by decide),
   (claim_C7_noop_guard 1 (fun _ => (TArr.mk [4, 5], (0 : Nat)))
      (TArr.mk [], 0) 3).2 (by decide)⟩

theorem pool_generator_call_ne_zero {α : Type} (K N : Nat) (b : Bool)
    (shuf : List α → List α) (key : Key) (D : List α) {i : Nat} (hi : i ≠ 0) :
    pool_generator_call K N b shuf key ⟨D, i⟩
      = ((D.drop (i * K)).take K, ⟨D, (i + 1) % N⟩) := by
  unfold pool_generator_call
  rw [if_neg (fun h => hi h.2)]

theorem pool_generator_run_zero_steps {α : Type} (K N : Nat) (b : Bool)
    (shufs : Nat → List α → List α) (s : PoolState α) :
    pool_generator_run K N b shufs 0 s = ([], s) := rfl

theorem pool_generator_run_succ_steps {α : Type} (K N : Nat) (b : Bool)
    (shufs : Nat → List α → List α) (n : Nat) (s : PoolState α) :
    pool_generator_run K N b shufs (n + 1) s
      = ((pool_generator_call K N b (shufs 0) 0 s).1
          :: (pool_generator_run K N b (fun j => shufs (j + 1)) n
              (pool_generator_call K N b (shufs 0) 0 s).2).1,
         (pool_generator_run K N b (fun j => shufs (j + 1)) n
            (pool_generator_call K N b (shufs 0) 0 s).2).2) := rfl

theorem pool_generator_run_succ_eq {α : Type} {K N : Nat} {b : Bool}
    {shufs : Nat → List α → List α} {n : Nat} {s s' : PoolState α}
    {batch : List α}
    (hc : pool_generator_call K N b (shufs 0) 0 s = (batch, s')) :
    pool_generator_run K N b shufs (n + 1) s
      = (batch :: (pool_generator_run K N b (fun j => shufs (j + 1)) n s').1,
         (pool_generator_run K N b (fun j => shufs (j + 1)) n s').2) := by
  rw [pool_generator_run_succ_steps, hc]

/-- Running the pool generator from a cursor `1 ≤ i < N` for `m` steps with
`i + m ≤ N` never reshuffles: it serves the chunks `i, …, i + m - 1` of the
unchanged pool and leaves the cursor at `(i + m) % N`. -/
theorem pool_run_mid {α : Type} (K N : Nat) (b : Bool) (D : List α) :
    ∀ (m i : Nat) (shufs : Nat → List α → List α), 1 ≤ i → i < N → i + m ≤ N →
      pool_generator_run K N b shufs m ⟨D, i⟩
        = ((List.range m).map (fun j => (D.drop ((i + j) * K)).take K),
           ⟨D, (i + m) % N⟩) := by
  intro m
  induction m with
  | zero =>
    intro i shufs h1 hiN _
    simp [pool_generator_run_zero_steps, Nat.mod_eq_of_lt hiN]
  | succ m ih =>
    intro i shufs h1 hiN him
    have hc := pool_generator_call_ne_zero (i := i) K N b (shufs 0) 0 D (by omega)
    have hmap : (List.range (m + 1)).map (fun j => (D.drop ((i + j) * K)).take K)
        = (D.drop (i * K)).take K
          :: (List.range m).map (fun j => (D.drop ((i + 1 + j) * K)).take K) := by
      rw [List.range_succ_eq_map, List.map_cons, List.map_map]
      refine congrArg₂ _ (by rw [Nat.add_zero]) ?_
      refine List.map_congr_left (fun j _ => ?_)
      simp only [Function.comp_apply]
      rw [show i + Nat.succ j = i + 1 + j from by omega]
    rcases Nat.lt_or_ge (i + 1) N with hlt | hge
    · rw [pool_generator_run_succ_eq hc]
      rw [Nat.mod_eq_of_lt hlt,
        ih (i + 1) (fun j => shufs (j + 1)) (by omega) hlt (by omega), hmap]
      rw [show i + 1 + m = i + (m + 1) from by omega]
    · have hm0 : m = 0 := by omega
      subst hm0
      rw [pool_generator_run_succ_eq hc]
      simp only [pool_generator_run_zero_steps]
      rw [hmap]
      simp

/-- Running the pool generator from cursor `0` for `1 ≤ j ≤ N` steps:
the first call reshuffles the pool once, the served batches are the first
`j` chunks of the reshuffled pool, and the cursor ends at `j % N`. -/
theorem pool_run_zero {α : Type} (K N : Nat) (D : List α)
    (shufs : Nat → List α → List α) :
    ∀ j, 1 ≤ j → j ≤ N →
      pool_generator_run K N true shufs j ⟨D, 0⟩
        = ((List.range j).map (fun t => ((shufs 0 D).drop (t * K)).take K),
           ⟨shufs 0 D, j % N⟩) := by
  intro j h1 hjN
  obtain ⟨m, rfl⟩ : ∃ m, j = m + 1 := ⟨j - 1, by omega⟩
  have hcall : pool_generator_call K N true (shufs 0) 0 ⟨D, 0⟩
      = (((shufs 0 D).drop (0 * K)).take K, ⟨shufs 0 D, 1 % N⟩) := by
    unfold pool_generator_call
    rw [if_pos ⟨rfl, rfl⟩]
  have hmap : (List.range (m + 1)).map
        (fun t => ((shufs 0 D).drop (t * K)).take K)
      = ((shufs 0 D).drop (0 * K)).take K
        :: (List.range m).map (fun t => ((shufs 0 D).drop ((1 + t) * K)).take K) := by
    rw [List.range_succ_eq_map, List.map_cons, List.map_map]
    refine congrArg₂ _ rfl ?_
    refine List.map_congr_left (fun t _ => ?_)
    simp only [Function.comp_apply]
    rw [show Nat.succ t = 1 + t from by omega]
  cases m with
  | zero =>
    rw [pool_generator_run_succ_eq hcall]
    simp only [pool_generator_run_zero_steps]
    rw [hmap]
    simp
  | succ m =>
    have h1N : 1 < N := by omega
    rw [pool_generator_run_succ_eq hcall]
    rw [Nat.mod_eq_of_lt h1N,
      pool_run_mid K N true (shufs 0 D) (m + 1) 1 (fun j => shufs (j + 1))
        (by omega) h1N (by omega), hmap]
    rw [show 1 + (m + 1) = m + 1 + 1 from by omega]

theorem flatten_chunks {α : Type} (D : List α) (K : Nat) :
    ∀ N, ((List.range N).map (fun t => (D.drop (t * K)).take K)).flatten
      = D.take (N * K) := by
  intro N
  induction N with
  | zero => simp
  | succ N ih =>
    rw [List.range_succ, List.map_append, List.flatten_append, ih]
    simp only [List.map_cons, List.map_nil, List.flatten_cons, List.flatten_nil,
      List.append_nil]
    rw [Nat.succ_mul, List.take_add]

/-- C8: for a pool of `M` samples and batch size `K ≥ 1` with `K ∣ M`:
the construction fixes `N = M / K` and cursor `0`; over `N` consecutive
calls every pooled sample is served exactly once; after `j` calls the cursor
is `j % N`, so it wraps to `0` precisely at the `N`-th call; every served
batch (for any pool, divisible or not) has exactly `K` elements, so a
remainder smaller than `K` is never served; and with shuffling enabled the
pool is reshuffled exactly at calls where the cursor is `0`. -/
theorem claim_C8_offline_cursor {α : Type} (data : List α) (K : Nat)
    (shufs : Nat → List α → List α)
    (hshuf : ∀ j (l : List α), (shufs j l).Perm l)
    (hK : 1 ≤ K) (hdvd : K ∣ data.length) (hM : K ≤ data.length) :
    batched_generator_from_list data K true
        = Except.ok (data.length / K, ⟨data, 0⟩)
    ∧ ((pool_generator_run K (data.length / K) true shufs (data.length / K)
          ⟨data, 0⟩).1.flatten).Perm data
    ∧ (∀ j, 1 ≤ j → j ≤ data.length / K →
        (pool_generator_run K (data.length / K) true shufs j ⟨data, 0⟩).2.i
          = j % (data.length / K))
    ∧ (∀ (data₂ : List α) (j : Nat), K ≤ data₂.length → 1 ≤ j →
        j ≤ data₂.length / K →
        ∀ batch ∈ (pool_generator_run K (data₂.length / K) true shufs j
            ⟨data₂, 0⟩).1, batch.length = K)
    ∧ (∀ (shuf : List α → List α) (key : Key) (s : PoolState α),
        (pool_generator_call K (data.length / K) true shuf key s).2.data
          = if s.i = 0 then shuf s.data else s.data) := by
  have hN1 : ∀ (l : List α), K ≤ l.length → 1 ≤ l.length / K :=
    fun l hl => (Nat.le_div_iff_mul_le (by omega)).mpr (by omega)
  refine ⟨?_, ?_, ?_, ?_, ?_⟩
  · simp [batched_generator_from_list, hM]
  · rw [pool_run_zero K (data.length / K) data shufs (data.length / K)
      (hN1 data hM) (Nat.le_refl _)]
    simp only
    rw [flatten_chunks, Nat.div_mul_cancel hdvd,
      ← (hshuf 0 data).length_eq, List.take_length]
    exact hshuf 0 data
  · intro j h1 hjN
    rw [pool_run_zero K (data.length / K) data shufs j h1 hjN]
  · intro data₂ j hK2 h1 hjN batch hmem
    rw [pool_run_zero K (data₂.length / K) data₂ shufs j h1 hjN] at hmem
    simp only at hmem
    obtain ⟨t, ht, rfl⟩ := List.mem_map.mp hmem
    have htj : t < j := List.mem_range.mp ht
    have h1' : (t + 1) * K ≤ (data₂.length / K) * K :=
      Nat.mul_le_mul_right K (by omega)
    have h2' : (data₂.length / K) * K ≤ data₂.length := Nat.div_mul_le_self _ _
    have h3' : (t + 1) * K = t * K + K := Nat.succ_mul t K
    rw [List.length_take, List.length_drop, (hshuf 0 data₂).length_eq]
    omega
  · intro shuf key s
    unfold pool_generator_call
    by_cases h0 : s.i = 0
    · rw [if_pos ⟨rfl, h0⟩, if_pos h0]
    · rw [if_neg (fun h => h0 h.2), if_neg h0]

/-- C8 witness: pool `[10, 20, 30, 40]`, batch size `K = 2`, identity
shuffling permutations, `N = 2`: the two served batches cover the pool
exactly once and the cursor is back at `0` after the second call. -/
theorem claim_C8_witness :
    ((pool_generator_run 2 2 true (fun _ l => l) 2
        ⟨[10, 20, 30, 40], 0⟩).1.flatten).Perm [10, 20, 30, 40]
    ∧ (pool_generator_run 2 2 true (fun _ l => l) 2
        ⟨[10, 20, 30, 40], 0⟩).2.i = 2 % 2 := by
  have h := claim_C8_offline_cursor [10, 20, 30, 40] 2 (fun _ l => l)
    (fun _ l => List.Perm.refl l) (by decide) (by decide) (by decide)
  exact ⟨h.2.1, h.2.2.1 2 (by decide) (by decide)⟩

/-- C9: the generator returned by `batched_generator_from_list` ignores its
key argument entirely (`del key`): for the same internal state (cursor and
pool order) and shuffle permutation, any two keys produce the same batch and
the same successor state. -/
theorem claim_C9_key_ignored {α : Type} (batchsize N : Nat) (shuffle : Bool)
    (shuf : List α → List α) (k₁ k₂ : Key) (s : PoolState α) :
    pool_generator_call batchsize N shuffle shuf k₁ s
      = pool_generator_call batchsize N shuffle shuf k₂ s := rfl

theorem sum_replicate_nat (n a : Nat) : (List.replicate n a).sum = n * a := by
  induction n with
  | zero => rw [Nat.zero_mul]; rfl
  | succ n ih =>
    rw [List.replicate_succ, List.sum_cons, ih, Nat.succ_mul]
    omega

theorem make_generator_gens_length {S C G : Type} (mk : S → C → G)
    (sys_data : List S) (configs : List C) :
    (make_generator_gens mk sys_data configs).length
      = sys_data.length * configs.length := by
  unfold make_generator_gens
  induction sys_data with
  | nil => simp
  | cons s ss ih =>
    simp only [List.map_cons, List.flatten_cons, List.length_append,
      List.length_map, List.length_cons]
    rw [ih, Nat.succ_mul, Nat.add_comm]

theorem mul_div_lt_of_not_dvd {n bs : Nat} (h : ¬ n ∣ bs) : n * (bs / n) < bs := by
  have hle : n * (bs / n) ≤ bs := by
    rw [Nat.mul_comm]
    exact Nat.div_mul_le_self bs n
  rcases Nat.eq_or_lt_of_le hle with heq | hlt
  · exact absurd ⟨bs / n, heq.symm⟩ h
  · exact hlt

theorem distribute_batchsize_one (b : Nat) :
    distribute_batchsize 1 b = Except.ok (1, b) := by
  unfold distribute_batchsize
  by_cases h8 : b ≤ 8
  · rw [if_pos h8]
  · rw [if_neg h8, if_pos (Nat.mod_one b)]
    show Except.ok (b / (b / 1), b / 1) = _
    rw [Nat.div_one, Nat.div_self (by omega)]

/-- C10: `make_generator` builds one component generator per
`(system, config)` pair, so `n = |sys_data| · |configs|` of them, and assigns
each the static count `bs / n`; the realized total batch size is
`n · (bs / n)`, which is strictly smaller than `bs` whenever `n` does not
divide `bs`, and the batched-generator construction still succeeds (on a
single device) — no error is raised. -/
theorem claim_C10_make_generator {S C α : Type} (mk : S → C → (Key → α))
    (sys_data : List S) (configs : List C) (bs : Nat) (d : α)
    (hS : 1 ≤ sys_data.length) (hC : 1 ≤ configs.length)
    (hndvd : ¬ (sys_data.length * configs.length) ∣ bs) :
    (make_generator_gens mk sys_data configs).length
        = sys_data.length * configs.length
    ∧ (build_batch_matrix (make_generator_batchsizes
          (sys_data.length * configs.length) bs)).length
        = (sys_data.length * configs.length)
            * (bs / (sys_data.length * configs.length))
    ∧ (sys_data.length * configs.length)
        * (bs / (sys_data.length * configs.length)) < bs
    ∧ ∃ g, batch_generators_lazy_list 1 (make_generator_gens mk sys_data configs)
        d false (make_generator_batchsizes (sys_data.length * configs.length) bs)
        0 = Except.ok g := by
  refine ⟨make_generator_gens_length mk sys_data configs, ?_, ?_, ?_⟩
  · exact (buildBatchMatrixFrom_length _ 0).trans (sum_replicate_nat _ _)
  · exact mul_div_lt_of_not_dvd hndvd
  · unfold batch_generators_lazy_list
    simp only [Bool.false_eq_true, if_false]
    rw [if_pos (by
      rw [make_generator_gens_length mk sys_data configs]
      unfold make_generator_batchsizes
      rw [List.length_replicate])]
    simp only [distribute_batchsize_one]
    exact ⟨_, rfl⟩

/-- C10 witness: two systems, one config (`n = 2`), requested batch size
`bs = 5`: each component gets count `2`, the realized total is `4 < 5`, and
construction succeeds. -/
theorem claim_C10_witness :
    (make_generator_gens (fun (_ : Unit) (_ : Unit) => fun (k : Key) => k)
        [(), ()] [()]).length = 2
    ∧ (2 * (5 / 2) < 5)
    ∧ ∃ g, batch_generators_lazy_list 1
        (make_generator_gens (fun (_ : Unit) (_ : Unit) => fun (k : Key) => k)
          [(), ()] [()]) 0 false (make_generator_batchsizes 2 5) 0
        = Except.ok g :=
  ⟨(claim_C10_make_generator (fun _ _ => fun k => k) [(), ()] [()] 5 0
      (by decide) (by decide) (by decide)).1,
   (claim_C10_make_generator (fun _ _ => fun k => k) [(), ()] [()] 5 0
      (by decide) (by decide) (by decide)).2.2.1,
   (claim_C10_make_generator (fun _ _ => fun k => k) [(), ()] [()] 5 0
      (by decide) (by decide) (by decide)).2.2.2⟩

end XXY
